import Mathlib

/-!
Verification of the m2u UDK parser (`src/udk/udkParser.py`).

A shallow embedding of the parsing core:

* `pySplit`       — `re.split("\n+\s*", unrtext)` (line normalization),
* `reSearch`      — a backtracking matcher covering the two regular
                    expressions used by the source (`Class=(.+?) Name=(.+?)\s+`
                    and `=\(.+?=(.+?),.+?=(.+?),.+?=(.+?)\)`), with Python's
                    leftmost-search, lazy `.+?` and greedy `\s+` semantics,
* `pyFloat?`      — Python's `float()` on decimal literals, over exact
                    rationals (non-finite inputs `inf`/`nan` are not modelled;
                    the spec leaves non-finite behavior undefined),
* `getFloatTuple`, `convertRotationFromUDK`, `parseActor` — the source
  functions; a raised (uncaught) Python exception is modelled as
  `Except.error ()`,
* `parseActorsFuel` — the `while True` loop of `parseActors`, fuel-indexed so
  that non-termination of the source loop is expressible (`.outOfFuel` for
  every fuel amount).

Machine floats are modelled as exact rationals; every numeric value appearing
in the source and in the claims (`0.0054931640625`, the test triples) is
exactly representable in binary64, so rational arithmetic agrees with IEEE
arithmetic on all inputs considered here.
-/

/-- Python's `\s` whitespace class (default, non-unicode). -/
def isPyWs (c : Char) : Bool :=
  c = ' ' || c = '\t' || c = '\n' || c = '\r' || c = '\x0b' || c = '\x0c'

/-- `sub.isPrefixOf hay`, written out so the development is self-contained. -/
def beginsWith : List Char → List Char → Bool
  | _, [] => true
  | [], _ :: _ => false
  | h :: hs, c :: cs => h = c && beginsWith hs cs

/-- Python's `line.startswith(pre)`. -/
def strStartsWith (s pre : String) : Bool :=
  beginsWith s.data pre.data

/-- `re.split("\n+\s*", _)` as a single left-to-right scan: a separator
starts at a newline and swallows that newline together with every following
whitespace character (`\n+` then `\s*`; since `\s` contains `\n` this is one
newline followed by a maximal whitespace run).  `skip` is true while inside
a separator's whitespace run; `acc` holds the current piece, reversed. -/
def splitRun (skip : Bool) (acc : List Char) : List Char → List (List Char)
  | [] => [acc.reverse]
  | c :: rest =>
    if skip then
      if isPyWs c then splitRun true [] rest
      else splitRun false [c] rest
    else if c = '\n' then acc.reverse :: splitRun true [] rest
    else splitRun false (c :: acc) rest

/-- `re.split("\n+\s*", unrtext)` from line 111 of the source. -/
def pySplit (s : String) : List String :=
  (splitRun false [] s.data).map fun l => ⟨l⟩

/-- Decimal digit string to a natural number. -/
def digitsVal (ds : List Char) : Nat :=
  ds.foldl (fun a c => a * 10 + (c.toNat - 48)) 0

/-- Strip leading and trailing Python whitespace. -/
def pyStrip (cs : List Char) : List Char :=
  ((cs.dropWhile isPyWs).reverse.dropWhile isPyWs).reverse

/-- Mantissa of a Python float literal: `digits [. digits]` or `. digits`,
returning its exact value and the unconsumed rest. -/
def pyFloatCore (cs : List Char) : Option (ℚ × List Char) :=
  let ip := cs.takeWhile Char.isDigit
  let r1 := cs.dropWhile Char.isDigit
  match r1 with
  | '.' :: r2 =>
    let fp := r2.takeWhile Char.isDigit
    let r3 := r2.dropWhile Char.isDigit
    if ip.isEmpty && fp.isEmpty then none
    else some ((digitsVal ip : ℚ) + (digitsVal fp : ℚ) / (10 : ℚ) ^ fp.length, r3)
  | _ => if ip.isEmpty then none else some ((digitsVal ip : ℚ), r1)

/-- Python's `float(s)` on decimal literals (sign, mantissa, optional
exponent, surrounding whitespace), as an exact rational; `none` models a
raised `ValueError`. `inf`/`nan` are not modelled (see module comment). -/
def pyFloat? (s : String) : Option ℚ :=
  let cs := pyStrip s.data
  let sgn : ℚ × List Char :=
    match cs with
    | '+' :: r => (1, r)
    | '-' :: r => (-1, r)
    | r => (1, r)
  match pyFloatCore sgn.2 with
  | none => none
  | some (m, rest) =>
    match rest with
    | [] => some (sgn.1 * m)
    | e :: r2 =>
      if e = 'e' || e = 'E' then
        let esgn : Int × List Char :=
          match r2 with
          | '+' :: r => (1, r)
          | '-' :: r => (-1, r)
          | r => (1, r)
        let ds := esgn.2.takeWhile Char.isDigit
        if ds.isEmpty || !(esgn.2.dropWhile Char.isDigit).isEmpty then none
        else some (sgn.1 * m * (10 : ℚ) ^ (esgn.1 * (digitsVal ds : Int)))
      else none

/-- The regular-expression elements needed by the source's two patterns:
a literal character, a lazy `.+?` (optionally a capture group), and a greedy
`\s+`. -/
inductive RElem where
  | lit : Char → RElem
  | dotLazy : Bool → RElem
  | wsGreedy : RElem
deriving DecidableEq

/-- Lazy `.+?` followed by a continuation `k`: take one more (non-newline)
character, try the continuation, extend on failure.  `acc` holds the taken
span, reversed. -/
def lazyLoop (k : List Char → Option (List (List Char))) (cap : Bool)
    (acc : List Char) : List Char → Option (List (List Char))
  | [] => none
  | x :: xs =>
    if x = '\n' then none
    else
      match k xs with
      | some caps => some (if cap then (x :: acc).reverse :: caps else caps)
      | none => lazyLoop k cap (x :: acc) xs

/-- Greedy `\s+` followed by a continuation `k`: try the longest whitespace
run first, shrink on failure, at least one character. -/
def greedyLoop (k : List Char → Option (List (List Char))) (s : List Char) :
    Nat → Option (List (List Char))
  | 0 => none
  | n + 1 =>
    match k (s.drop (n + 1)) with
    | some caps => some caps
    | none => greedyLoop k s n

/-- Match a pattern against a prefix of `s` (the rest of `s` is
unconstrained, as under `re.search`), returning the capture-group texts in
order, with Python's backtracking semantics. -/
def reMatch : List RElem → List Char → Option (List (List Char))
  | [], _ => some []
  | .lit c :: es, s =>
    match s with
    | [] => none
    | x :: xs => if x = c then reMatch es xs else none
  | .dotLazy cap :: es, s => lazyLoop (reMatch es) cap [] s
  | .wsGreedy :: es, s => greedyLoop (reMatch es) s (s.takeWhile isPyWs).length

/-- `re.search`: try a match at every position, leftmost first. -/
def reSearch (pat : List RElem) (s : List Char) : Option (List (List Char)) :=
  match reMatch pat s with
  | some caps => some caps
  | none =>
    match s with
    | [] => none
    | _ :: xs => reSearch pat xs

/-- The header pattern `Class=(.+?) Name=(.+?)\s+` from line 118. -/
def headerPat : List RElem :=
  [.lit 'C', .lit 'l', .lit 'a', .lit 's', .lit 's', .lit '=', .dotLazy true,
   .lit ' ', .lit 'N', .lit 'a', .lit 'm', .lit 'e', .lit '=', .dotLazy true,
   .wsGreedy]

/-- The triplet pattern `=\(.+?=(.+?),.+?=(.+?),.+?=(.+?)\)` from line 148
(`float3Match`). -/
def float3Pat : List RElem :=
  [.lit '=', .lit '(', .dotLazy false, .lit '=', .dotLazy true, .lit ',',
   .dotLazy false, .lit '=', .dotLazy true, .lit ',',
   .dotLazy false, .lit '=', .dotLazy true, .lit ')']

/-- `re.search("Class=(.+?) Name=(.+?)\s+", line)`, returning the two
captured groups. -/
def headerSearch (line : String) : Option (String × String) :=
  match reSearch headerPat line.data with
  | some (g1 :: g2 :: _) => some (⟨g1⟩, ⟨g2⟩)
  | _ => none

/-- `float3Match.search(text)`, returning the three captured groups. -/
def float3Search (text : String) : Option (String × String × String) :=
  match reSearch float3Pat text.data with
  | some (g1 :: g2 :: g3 :: _) => some (⟨g1⟩, ⟨g2⟩, ⟨g3⟩)
  | _ => none

/-- A 64-bit float triple, modelled exactly. -/
abbrev Vec3 := ℚ × ℚ × ℚ

/-- Modelled from the spec: the `Record` data model of §3 (the source's
`m2u.helper.ObjectInfo.ObjectInfo`, whose module is not part of this
repository slice). `textblock` models `attrs["textblock"]`, the opaque
payload slot; `position`/`rotation` default to zero and `scale` to the
identity scale, per §3. -/
structure ObjectInfo where
  name : String
  type_internal : String
  type_common : String
  position : Vec3 := (0, 0, 0)
  rotation : Vec3 := (0, 0, 0)
  scale : Vec3 := (1, 1, 1)
  textblock : String := ""
deriving DecidableEq

/-- `_getFloatTuple` (lines 149-159).  When `float3Match.search` returns
`None`, the source calls `g.group(i+1)` on `None`, raising an uncaught
`AttributeError`; that raised exception is modelled as `Except.error ()`.
A component that fails `float()` is replaced by `0.0` (`except ValueError:
pass` keeps the preset `a[i] = 0.0`). -/
def getFloatTuple (text : String) : Except Unit Vec3 :=
  match float3Search text with
  | none => .error ()
  | some (g1, g2, g3) =>
    .ok ((pyFloat? g1).getD 0, (pyFloat? g2).getD 0, (pyFloat? g3).getD 0)

/-- `_convertRotationFromUDK` (lines 163-169): multiply each component by
the source's literal `0.0054931640625` (exactly representable in binary64,
so rational multiplication is exact IEEE multiplication here). -/
def convertRotationFromUDK (rotTuple : Vec3) : Vec3 :=
  (rotTuple.1 * (0.0054931640625 : ℚ),
   rotTuple.2.1 * (0.0054931640625 : ℚ),
   rotTuple.2.2 * (0.0054931640625 : ℚ))

/-- The `for line in lines[sindex+1:]` loop of `parseActor` (lines 127-143):
threads the record under construction and the `textblock` accumulator;
a raised exception from `getFloatTuple` propagates as `.error`. -/
def walkLines (safe : Bool) : List String → ObjectInfo → String →
    Except Unit (ObjectInfo × String)
  | [], info, tb => .ok (info, tb)
  | line :: rest, info, tb =>
    if !safe && strStartsWith line "End Actor" then .ok (info, tb)
    else if strStartsWith line "Location=" then
      match getFloatTuple line with
      | .error e => .error e
      | .ok t => walkLines safe rest { info with position := t } tb
    else if strStartsWith line "Rotation=" then
      match getFloatTuple line with
      | .error e => .error e
      | .ok t => walkLines safe rest { info with rotation := convertRotationFromUDK t } tb
    else if strStartsWith line "DrawScale3D=" then
      match getFloatTuple line with
      | .error e => .error e
      | .ok t => walkLines safe rest { info with scale := t } tb
    else walkLines safe rest info (tb ++ "\n" ++ line)

/-- The `sindex` computed on lines 109-117: `0`, unless `safe` is false and
some line starts with `"Begin Actor"`, in which case the first such index. -/
def startIndex (safe : Bool) (lines : List String) : Nat :=
  if safe then 0
  else
    match lines.findIdx? (fun l => strStartsWith l "Begin Actor") with
    | some i => i
    | none => 0

/-- `parseActor` (lines 91-145).  `tmap` is the external
`getCommonTypeFromInternal` collaborator (a pure lookup, §6); the logger
call on failure is observational only and not modelled.  Result:
`.ok none` models `return None`, `.ok (some info)` a returned record, and
`.error ()` an uncaught Python exception propagating out of the call. -/
def parseActor (tmap : String → String) (unrtext : String) (safe : Bool) :
    Except Unit (Option ObjectInfo) :=
  let lines := pySplit unrtext
  let sindex := startIndex safe lines
  match headerSearch (lines.getD sindex "") with
  | none => .ok none
  | some (objtype, objname) =>
    let info : ObjectInfo :=
      { name := objname, type_internal := objtype, type_common := tmap objtype }
    match walkLines safe (lines.drop (sindex + 1)) info "" with
    | .error e => .error e
    | .ok (info', tb) => .ok (some { info' with textblock := tb })

/-- Does `sub` occur in `hay` starting at index `i`? -/
def subAt (hay sub : List Char) (i : Nat) : Bool :=
  beginsWith (hay.drop i) sub

/-- Scan positions `i, i+1, ...` (at most `fuel` of them) for `sub`. -/
def pyFindAux (hay sub : List Char) : Nat → Nat → Option Nat
  | _, 0 => none
  | i, fuel + 1 => if subAt hay sub i then some i else pyFindAux hay sub (i + 1) fuel

/-- Python's `s.find(sub, start)`: index of the leftmost occurrence of `sub`
at or after `start`, `none` for `-1`. -/
def pyFind (s sub : String) (start : Nat) : Option Nat :=
  pyFindAux s.data sub.data start (s.data.length + 1 - start)

/-- The slice `unrtext[sindex:eindex]` of line 85, where
`eindex = unrtext.find("End Actor", sindex)` (line 84): a found index slices
up to it; `-1` (not found) makes the slice `unrtext[sindex:-1]`, which stops
one character short of the buffer's end. -/
def actorSlice (text : String) (s : Nat) : String :=
  match pyFind text "End Actor" s with
  | some e => ⟨(text.data.drop s).take (e - s)⟩
  | none => ⟨(text.data.drop s).take (text.data.length - 1 - s)⟩

/-- Outcome of running the `parseActors` loop with a fuel bound. -/
inductive BatchResult where
  | ok : List (Option ObjectInfo) → BatchResult
  | raised : BatchResult
  | outOfFuel : BatchResult
deriving DecidableEq

/-- The `while True` loop of `parseActors` (lines 77-88), fuel-indexed.
State: the scan cursor `sindex` and the accumulated `objList` (reversed).
Faithfully, after `sindex = unrtext.find("Begin Actor", sindex)` succeeds
the loop body never advances `sindex` past the found occurrence, so the
recursive call keeps the found index `s` as the next cursor; `obj` is
appended with no `None` check (line 87). `.outOfFuel` for every fuel amount
exhibits non-termination of the source loop. -/
def parseActorsFuel (tmap : String → String) (text : String) :
    Nat → Nat → List (Option ObjectInfo) → BatchResult
  | 0, _, _ => .outOfFuel
  | fuel + 1, sindex, acc =>
    match pyFind text "Begin Actor" sindex with
    | none => .ok acc.reverse
    | some s =>
      match parseActor tmap (actorSlice text s) true with
      | .error _ => .raised
      | .ok obj => parseActorsFuel tmap text fuel s (obj :: acc)

theorem pyFindAux_found (hay sub : List Char) :
    ∀ fuel i j, pyFindAux hay sub i fuel = some j →
      i ≤ j ∧ subAt hay sub j = true := by
  intro fuel
  induction fuel with
  | zero => intro i j h; exact absurd h (by simp [pyFindAux])
  | succ n ih =>
    intro i j h
    simp only [pyFindAux] at h
    by_cases hs : subAt hay sub i = true
    · rw [if_pos hs] at h
      cases h
      exact ⟨Nat.le_refl _, hs⟩
    · rw [if_neg hs] at h
      obtain ⟨h1, h2⟩ := ih (i + 1) j h
      exact ⟨by omega, h2⟩

theorem subAt_lt (hay sub : List Char) (j : Nat) (hne : sub ≠ [])
    (h : subAt hay sub j = true) : j < hay.length := by
  by_contra hh
  have hdrop : hay.drop j = [] := List.drop_eq_nil_of_le (by omega)
  rw [subAt, hdrop] at h
  match sub, hne with
  | c :: cs, _ => simp [beginsWith] at h

/-- A successful `find` is a fixed point: searching again from the found
index finds the same index.  This is what makes the `parseActors` loop spin:
it restarts the search at the found index instead of past it. -/
theorem pyFind_self (s sub : String) (i j : Nat) (hne : sub.data ≠ [])
    (h : pyFind s sub i = some j) : pyFind s sub j = some j := by
  obtain ⟨h1, h2⟩ := pyFindAux_found s.data sub.data _ i j h
  have hj : j < s.data.length := subAt_lt _ _ _ hne h2
  rw [pyFind, show s.data.length + 1 - j = (s.data.length - j) + 1 from by omega]
  simp only [pyFindAux]
  rw [if_pos h2]

/-- Once the cursor sits on a `"Begin Actor"` occurrence whose slice parses
without an exception, every further iteration of the `parseActors` loop
repeats the same state (the cursor is never advanced), so no amount of fuel
finishes the loop. -/
theorem parseActorsFuel_stuck (tmap : String → String) (text : String) (s : Nat)
    (obj : Option ObjectInfo)
    (hfind : pyFind text "Begin Actor" s = some s)
    (hobj : parseActor tmap (actorSlice text s) true = .ok obj) :
    ∀ fuel acc, parseActorsFuel tmap text fuel s acc = .outOfFuel := by
  intro fuel
  induction fuel with
  | zero => intro acc; rfl
  | succ n ih =>
    intro acc
    simp only [parseActorsFuel, hfind, hobj]
    exact ih _

/-- **C1.** Refuted as stated; the code is the bug.  On a buffer containing
`"Begin Actor"` and no subsequent `"End Actor"` the `parseActors` loop never
terminates: line 81 re-finds the very occurrence the cursor already sits on
(`sindex` is never advanced past it), so the scan repeats the same state and
no fuel amount suffices.  (The slice handed to `parseActor` also stops one
character short of the buffer's end, see `actorSlice`.) -/
theorem parseActors_no_end_marker_diverges :
    ∀ fuel acc,
      parseActorsFuel (fun s => s) "Begin Actor Class=Foo Name=Bar \nsome body line"
        fuel 0 acc = BatchResult.outOfFuel :=
  parseActorsFuel_stuck (fun s => s) _ 0 _ rfl rfl

/-- **C2.** Refuted as stated; the code is the bug.  Even on a buffer holding
exactly two well-formed actor blocks, `parseActors` never returns any list:
the loop keeps re-finding the first `"Begin Actor"` occurrence forever. -/
theorem parseActors_two_actor_buffer_diverges :
    ∀ fuel acc,
      parseActorsFuel (fun s => s)
        "Begin Actor Class=A Name=B \nfirst\nEnd Actor Begin Actor Class=C Name=D \nsecond\nEnd Actor"
        fuel 0 acc = BatchResult.outOfFuel :=
  parseActorsFuel_stuck (fun s => s) _ 0 _ rfl rfl

/-- **C3.** Refuted as stated; the code is the bug.  When a block's header
yields no identity, `parseActor` returns `None`, and line 87 appends that
`None` to `objList` with no check: one loop iteration on such a buffer grows
the accumulator by a `none` placeholder entry (and the loop then repeats the
same block forever, never returning the list). -/
theorem parseActors_appends_none_placeholder :
    ∀ fuel acc,
      parseActorsFuel (fun s => s) "Begin Actor\nEnd Actor" (fuel + 1) 0 acc
        = parseActorsFuel (fun s => s) "Begin Actor\nEnd Actor" fuel 0 (none :: acc) := by
  intro fuel acc
  rfl

/-- **C6.** Refuted as stated; the code is the bug.  A `Location=` line whose
remainder does not match the triplet pattern at all makes `_getFloatTuple`
call `g.group(...)` on `None`: an uncaught `AttributeError` (only
`ValueError` is caught), which aborts the single-actor parse and, through
`parseActors`, the whole batch. -/
theorem getFloatTuple_no_match_raises :
    getFloatTuple "Location=bla" = Except.error ()
    ∧ parseActor (fun s => s) "Begin Actor Class=Foo Name=Bar \nLocation=bla" true
        = Except.error ()
    ∧ ∀ acc, parseActorsFuel (fun s => s)
        "Begin Actor Class=Foo Name=Bar \nLocation=bla\nEnd Actor" 1 0 acc
        = BatchResult.raised :=
  ⟨rfl, rfl, fun _ => rfl⟩

/-- **C4.** When the header pattern finds no `Class=`/`Name=` match on the
start line, `parseActor` returns `None` (modelled `.ok none`): an explicit
failure signal, no exception, and no partially-populated record. -/
theorem parseActor_no_identity (tmap : String → String) (text : String) (safe : Bool)
    (h : headerSearch ((pySplit text).getD (startIndex safe (pySplit text)) "") = none) :
    parseActor tmap text safe = Except.ok none := by
  simp only [parseActor, h]

/-- Witness for `parseActor_no_identity` on a concrete headerless input. -/
theorem parseActor_no_identity_witness :
    headerSearch ((pySplit "hello world").getD
        (startIndex false (pySplit "hello world")) "") = none
    ∧ parseActor (fun s => s) "hello world" false = Except.ok none :=
  ⟨rfl, parseActor_no_identity (fun s => s) "hello world" false rfl⟩

/-- **C8.** Inside a line the triplet pattern does match, a component that
fails to parse as a float is replaced by `0.0` for that slot only,
whichever slot it is; the well-formed sibling slots keep their parsed
values and the triplet as a whole still succeeds. -/
theorem getFloatTuple_component_defaults (text a b c : String) (q q' : ℚ)
    (hm : float3Search text = some (a, b, c)) :
    (pyFloat? a = none → pyFloat? b = some q → pyFloat? c = some q' →
      getFloatTuple text = Except.ok (0, q, q'))
    ∧ (pyFloat? b = none → pyFloat? a = some q → pyFloat? c = some q' →
      getFloatTuple text = Except.ok (q, 0, q'))
    ∧ (pyFloat? c = none → pyFloat? a = some q → pyFloat? b = some q' →
      getFloatTuple text = Except.ok (q, q', 0)) := by
  refine ⟨fun ha hb hc => ?_, fun hb ha hc => ?_, fun hc ha hb => ?_⟩
  all_goals
    simp only [getFloatTuple, hm, ha, hb, hc, Option.getD_some, Option.getD_none]

theorem pyFloat_two : pyFloat? "2.0" = some 2 := by
  have e : pyFloat? "2.0"
      = some ((1 : ℚ) * ((digitsVal ['2'] : ℚ)
          + (digitsVal ['0'] : ℚ) / (10 : ℚ) ^ (1 : ℕ))) := rfl
  rw [e, show digitsVal ['2'] = 2 from rfl, show digitsVal ['0'] = 0 from rfl]
  norm_num

theorem pyFloat_three : pyFloat? "3.0" = some 3 := by
  have e : pyFloat? "3.0"
      = some ((1 : ℚ) * ((digitsVal ['3'] : ℚ)
          + (digitsVal ['0'] : ℚ) / (10 : ℚ) ^ (1 : ℕ))) := rfl
  rw [e, show digitsVal ['3'] = 3 from rfl, show digitsVal ['0'] = 0 from rfl]
  norm_num

/-- Witness for `getFloatTuple_component_defaults` at the spec's example
`Location=(X=abc,Y=2.0,Z=3.0)`, which yields `(0.0, 2.0, 3.0)`. -/
theorem getFloatTuple_component_defaults_witness :
    float3Search "Location=(X=abc,Y=2.0,Z=3.0)" = some ("abc", "2.0", "3.0")
    ∧ pyFloat? "abc" = none
    ∧ getFloatTuple "Location=(X=abc,Y=2.0,Z=3.0)" = Except.ok (0, 2, 3) :=
  ⟨rfl, rfl,
    (getFloatTuple_component_defaults "Location=(X=abc,Y=2.0,Z=3.0)"
      "abc" "2.0" "3.0" 2 3 rfl).1 rfl pyFloat_two pyFloat_three⟩

/-- **C9.** The rotation converter multiplies each component by the
source's literal `0.0054931640625`, which is exactly `360 / 65536`; on the
fixed-point triple `(16384, 32768, 65536)` it yields exactly
`(90, 180, 360)` degrees.  It is a total pure function. -/
theorem convertRotation_exact :
    (∀ r : Vec3, convertRotationFromUDK r
        = (r.1 * ((360 : ℚ) / 65536), r.2.1 * ((360 : ℚ) / 65536),
           r.2.2 * ((360 : ℚ) / 65536)))
    ∧ convertRotationFromUDK (16384, 32768, 65536) = (90, 180, 360) := by
  have hc : (0.0054931640625 : ℚ) = (360 : ℚ) / 65536 := by norm_num
  constructor
  · intro r
    rw [convertRotationFromUDK, hc]
  · simp only [convertRotationFromUDK, hc, Prod.mk.injEq]
    norm_num

/-- Does a line carry one of the three numeric-triplet prefixes the walk
recognizes (`Location=`, `Rotation=`, `DrawScale3D=`)? -/
def tripletPrefix (l : String) : Bool :=
  strStartsWith l "Location=" || strStartsWith l "Rotation=" || strStartsWith l "DrawScale3D="

/-- A line the walk appends to the opaque payload. -/
def keptLine (l : String) : Bool := !tripletPrefix l

/-- The lines the walk actually visits: all of them in pre-split (`safe`)
mode, otherwise only those before the first `End Actor` line. -/
def consideredLines (safe : Bool) (ls : List String) : List String :=
  if safe then ls else ls.takeWhile fun l => !strStartsWith l "End Actor"

/-- The payload accumulator's shape: each kept line prefixed by `"\n"`,
in order (line 143 of the source). -/
def payloadJoin : List String → String
  | [] => ""
  | l :: ls => "\n" ++ l ++ payloadJoin ls

/-- Repeated overwrite of a triplet attribute: the value after processing
`ls` in order, starting from `p`, taking `conv` of each successfully
extracted triplet. -/
def lastTripletWith (conv : Vec3 → Vec3) (ls : List String) (p : Vec3) : Vec3 :=
  ls.foldl (fun q l => match getFloatTuple l with | .ok t => conv t | .error _ => q) p

/-- Did the triplet extraction complete without raising? -/
def exceptOk : Except Unit Vec3 → Bool
  | .ok _ => true
  | .error _ => false

theorem sw_head_false (l p : String) (x c : Char) (xs cs : List Char)
    (hd : l.data = x :: xs) (hp : p.data = c :: cs) (hne : x ≠ c) :
    strStartsWith l p = false := by
  rw [strStartsWith, hd, hp]
  simp [beginsWith, hne]

theorem sw_head (l p : String) (c : Char) (cs : List Char)
    (hp : p.data = c :: cs) (h : strStartsWith l p = true) :
    ∃ xs, l.data = c :: xs := by
  rw [strStartsWith, hp] at h
  rcases hd : l.data with _ | ⟨x, xs⟩
  · rw [hd] at h; simp [beginsWith] at h
  · rw [hd] at h
    simp only [beginsWith, Bool.and_eq_true, decide_eq_true_eq] at h
    exact ⟨xs, by rw [h.1]⟩


theorem loc_not_rot (l : String) (h : strStartsWith l "Location=" = true) :
    strStartsWith l "Rotation=" = false := by
  obtain ⟨xs, hd⟩ := sw_head l "Location=" 'L' _ rfl h
  exact sw_head_false l "Rotation=" 'L' 'R' xs _ hd rfl (by decide)

theorem loc_not_scale (l : String) (h : strStartsWith l "Location=" = true) :
    strStartsWith l "DrawScale3D=" = false := by
  obtain ⟨xs, hd⟩ := sw_head l "Location=" 'L' _ rfl h
  exact sw_head_false l "DrawScale3D=" 'L' 'D' xs _ hd rfl (by decide)

theorem rot_not_scale (l : String) (h : strStartsWith l "Rotation=" = true) :
    strStartsWith l "DrawScale3D=" = false := by
  obtain ⟨xs, hd⟩ := sw_head l "Rotation=" 'R' _ rfl h
  exact sw_head_false l "DrawScale3D=" 'R' 'D' xs _ hd rfl (by decide)

theorem consideredLines_nil (safe : Bool) : consideredLines safe [] = [] := by
  cases safe <;> rfl

theorem consideredLines_cons_keep (safe : Bool) (l : String) (rest : List String)
    (h : safe = true ∨ strStartsWith l "End Actor" = false) :
    consideredLines safe (l :: rest) = l :: consideredLines safe rest := by
  cases safe
  · have he : strStartsWith l "End Actor" = false := h.resolve_left (by simp)
    simp [consideredLines, List.takeWhile_cons, he]
  · simp [consideredLines]

theorem consideredLines_cons_end (l : String) (rest : List String)
    (h : strStartsWith l "End Actor" = true) :
    consideredLines false (l :: rest) = [] := by
  simp [consideredLines, List.takeWhile_cons, h]

theorem lastTripletWith_cons_ok (conv : Vec3 → Vec3) (l : String) (ls : List String)
    (p t : Vec3) (h : getFloatTuple l = .ok t) :
    lastTripletWith conv (l :: ls) p = lastTripletWith conv ls (conv t) := by
  simp [lastTripletWith, List.foldl_cons, h]

theorem filter_cons_pos (p : String → Bool) (a : String) (l : List String)
    (h : p a = true) : (a :: l).filter p = a :: l.filter p := by
  simp [List.filter_cons, h]

theorem filter_cons_neg (p : String → Bool) (a : String) (l : List String)
    (h : p a = false) : (a :: l).filter p = l.filter p := by
  simp [List.filter_cons, h]

theorem walkLines_spec (safe : Bool) :
    ∀ (ls : List String) (info : ObjectInfo) (tb : String)
      (info' : ObjectInfo) (tb' : String),
    walkLines safe ls info tb = .ok (info', tb') →
      info'.name = info.name
      ∧ info'.type_internal = info.type_internal
      ∧ info'.type_common = info.type_common
      ∧ info'.position = lastTripletWith id
          ((consideredLines safe ls).filter fun l => strStartsWith l "Location=")
          info.position
      ∧ info'.rotation = lastTripletWith convertRotationFromUDK
          ((consideredLines safe ls).filter fun l => strStartsWith l "Rotation=")
          info.rotation
      ∧ info'.scale = lastTripletWith id
          ((consideredLines safe ls).filter fun l => strStartsWith l "DrawScale3D=")
          info.scale
      ∧ tb' = tb ++ payloadJoin ((consideredLines safe ls).filter keptLine) := by
  intro ls
  induction ls with
  | nil =>
    intro info tb info' tb' h
    simp only [walkLines, Except.ok.injEq, Prod.mk.injEq] at h
    obtain ⟨hi, ht⟩ := h
    subst hi; subst ht
    simp [consideredLines_nil, lastTripletWith, payloadJoin, String.append_empty]
  | cons l rest ih =>
    intro info tb info' tb' h
    simp only [walkLines] at h
    by_cases h1 : (!safe && strStartsWith l "End Actor") = true
    · rw [if_pos h1] at h
      simp only [Except.ok.injEq, Prod.mk.injEq] at h
      obtain ⟨hi, ht⟩ := h
      subst hi; subst ht
      have hsafe : safe = false := by
        cases safe
        · rfl
        · simp at h1
      have hend : strStartsWith l "End Actor" = true := by
        cases hsw : strStartsWith l "End Actor"
        · rw [hsafe, hsw] at h1; simp at h1
        · rfl
      rw [hsafe, consideredLines_cons_end l rest hend]
      simp [lastTripletWith, payloadJoin, String.append_empty]
    · rw [if_neg h1] at h
      have hkeep : consideredLines safe (l :: rest) = l :: consideredLines safe rest := by
        refine consideredLines_cons_keep safe l rest ?_
        cases safe
        · right
          cases hsw : strStartsWith l "End Actor"
          · rfl
          · exact absurd (by simp [hsw]) h1
        · left; rfl
      rw [hkeep]
      by_cases h2 : strStartsWith l "Location=" = true
      · rw [if_pos h2] at h
        have hk : keptLine l = false := by simp [keptLine, tripletPrefix, h2]
        cases hg : getFloatTuple l with
        | error e => rw [hg] at h; simp at h
        | ok t =>
          rw [hg] at h
          obtain ⟨hn, hti, htc, hp, hr, hs, htb⟩ := ih _ _ _ _ h
          refine ⟨hn, hti, htc, ?_, ?_, ?_, ?_⟩
          · rw [hp, filter_cons_pos (fun s => strStartsWith s "Location=") l _ h2,
              lastTripletWith_cons_ok id l _ _ t hg]
            rfl
          · rw [hr, filter_cons_neg (fun s => strStartsWith s "Rotation=") l _ (loc_not_rot l h2)]
          · rw [hs, filter_cons_neg (fun s => strStartsWith s "DrawScale3D=") l _ (loc_not_scale l h2)]
          · rw [htb, filter_cons_neg keptLine l _ hk]
      · rw [if_neg h2] at h
        have e2 : strStartsWith l "Location=" = false := by simpa using h2
        by_cases h3 : strStartsWith l "Rotation=" = true
        · rw [if_pos h3] at h
          have hk : keptLine l = false := by simp [keptLine, tripletPrefix, h3]
          cases hg : getFloatTuple l with
          | error e => rw [hg] at h; simp at h
          | ok t =>
            rw [hg] at h
            obtain ⟨hn, hti, htc, hp, hr, hs, htb⟩ := ih _ _ _ _ h
            refine ⟨hn, hti, htc, ?_, ?_, ?_, ?_⟩
            · rw [hp, filter_cons_neg (fun s => strStartsWith s "Location=") l _ e2]
            · rw [hr, filter_cons_pos (fun s => strStartsWith s "Rotation=") l _ h3,
                lastTripletWith_cons_ok convertRotationFromUDK l _ _ t hg]
            · rw [hs, filter_cons_neg (fun s => strStartsWith s "DrawScale3D=") l _ (rot_not_scale l h3)]
            · rw [htb, filter_cons_neg keptLine l _ hk]
        · rw [if_neg h3] at h
          have e3 : strStartsWith l "Rotation=" = false := by simpa using h3
          by_cases h4 : strStartsWith l "DrawScale3D=" = true
          · rw [if_pos h4] at h
            have hk : keptLine l = false := by simp [keptLine, tripletPrefix, h4]
            cases hg : getFloatTuple l with
            | error e => rw [hg] at h; simp at h
            | ok t =>
              rw [hg] at h
              obtain ⟨hn, hti, htc, hp, hr, hs, htb⟩ := ih _ _ _ _ h
              refine ⟨hn, hti, htc, ?_, ?_, ?_, ?_⟩
              · rw [hp, filter_cons_neg (fun s => strStartsWith s "Location=") l _ e2]
              · rw [hr, filter_cons_neg (fun s => strStartsWith s "Rotation=") l _ e3]
              · rw [hs, filter_cons_pos (fun s => strStartsWith s "DrawScale3D=") l _ h4,
                  lastTripletWith_cons_ok id l _ _ t hg]
                rfl
              · rw [htb, filter_cons_neg keptLine l _ hk]
          · rw [if_neg h4] at h
            have e4 : strStartsWith l "DrawScale3D=" = false := by simpa using h4
            have hk : keptLine l = true := by simp [keptLine, tripletPrefix, e2, e3, e4]
            obtain ⟨hn, hti, htc, hp, hr, hs, htb⟩ := ih _ _ _ _ h
            refine ⟨hn, hti, htc, ?_, ?_, ?_, ?_⟩
            · rw [hp, filter_cons_neg (fun s => strStartsWith s "Location=") l _ e2]
            · rw [hr, filter_cons_neg (fun s => strStartsWith s "Rotation=") l _ e3]
            · rw [hs, filter_cons_neg (fun s => strStartsWith s "DrawScale3D=") l _ e4]
            · rw [htb, filter_cons_pos keptLine l _ hk]
              simp [payloadJoin, String.append_assoc]

theorem walkLines_isOk (safe : Bool) :
    ∀ (ls : List String) (info : ObjectInfo) (tb : String),
    (∀ l ∈ ls, tripletPrefix l = true → exceptOk (getFloatTuple l) = true) →
    ∃ r, walkLines safe ls info tb = .ok r := by
  intro ls
  induction ls with
  | nil => intro info tb _; exact ⟨(info, tb), rfl⟩
  | cons l rest ih =>
    intro info tb hall
    have hl := hall l (List.mem_cons_self l rest)
    have hrest : ∀ l' ∈ rest, tripletPrefix l' = true → exceptOk (getFloatTuple l') = true :=
      fun l' hm => hall l' (List.mem_cons_of_mem l hm)
    simp only [walkLines]
    by_cases h1 : (!safe && strStartsWith l "End Actor") = true
    · rw [if_pos h1]; exact ⟨(info, tb), rfl⟩
    · rw [if_neg h1]
      by_cases h2 : strStartsWith l "Location=" = true
      · rw [if_pos h2]
        have hok := hl (by simp [tripletPrefix, h2])
        cases hg : getFloatTuple l with
        | error e => rw [hg] at hok; simp [exceptOk] at hok
        | ok t => exact ih _ _ hrest
      · rw [if_neg h2]
        by_cases h3 : strStartsWith l "Rotation=" = true
        · rw [if_pos h3]
          have hok := hl (by simp [tripletPrefix, h3])
          cases hg : getFloatTuple l with
          | error e => rw [hg] at hok; simp [exceptOk] at hok
          | ok t => exact ih _ _ hrest
        · rw [if_neg h3]
          by_cases h4 : strStartsWith l "DrawScale3D=" = true
          · rw [if_pos h4]
            have hok := hl (by simp [tripletPrefix, h4])
            cases hg : getFloatTuple l with
            | error e => rw [hg] at hok; simp [exceptOk] at hok
            | ok t => exact ih _ _ hrest
          · rw [if_neg h4]
            exact ih _ _ hrest

theorem consideredLines_true (ls : List String) : consideredLines true ls = ls := rfl

/-- Inversion of a successful `parseActor`: the header matched, the body
walk succeeded, and the record is the walk's record with the accumulated
`textblock` stored on it (line 144). -/
theorem parseActor_ok_inv (tmap : String → String) (text : String) (safe : Bool)
    (info : ObjectInfo) (h : parseActor tmap text safe = .ok (some info)) :
    ∃ objtype objname info' tb',
      headerSearch ((pySplit text).getD (startIndex safe (pySplit text)) "")
        = some (objtype, objname)
      ∧ walkLines safe ((pySplit text).drop (startIndex safe (pySplit text) + 1))
          { name := objname, type_internal := objtype, type_common := tmap objtype } ""
          = .ok (info', tb')
      ∧ info = { info' with textblock := tb' } := by
  simp only [parseActor] at h
  cases hh : headerSearch ((pySplit text).getD (startIndex safe (pySplit text)) "") with
  | none => rw [hh] at h; simp at h
  | some p =>
    obtain ⟨objtype, objname⟩ := p
    simp only [hh] at h
    cases hw : walkLines safe ((pySplit text).drop (startIndex safe (pySplit text) + 1))
        { name := objname, type_internal := objtype, type_common := tmap objtype } "" with
    | error e => rw [hw] at h; simp at h
    | ok r =>
      obtain ⟨info', tb'⟩ := r
      simp only [hw, Except.ok.injEq, Option.some.injEq] at h
      exact ⟨objtype, objname, info', tb', rfl, hw, h.symm⟩

/-- **C7.** After a successful `parseActor`, the stored opaque payload is
exactly the walked lines (all lines after the header; in non-pre-split mode
only those before the first `End Actor` line, where the walk stops) that do
not carry a `Location=`/`Rotation=`/`DrawScale3D=` prefix, each preceded by
a `"\n"` separator, in original order and with original text — and nothing
else. -/
theorem parseActor_payload (tmap : String → String) (text : String) (safe : Bool)
    (info : ObjectInfo) (h : parseActor tmap text safe = .ok (some info)) :
    info.textblock = payloadJoin
      ((consideredLines safe
          ((pySplit text).drop (startIndex safe (pySplit text) + 1))).filter keptLine) := by
  obtain ⟨objtype, objname, info', tb', hh, hw, heq⟩ :=
    parseActor_ok_inv tmap text safe info h
  obtain ⟨_, _, _, _, _, _, htb⟩ := walkLines_spec safe _ _ _ _ _ hw
  rw [heq]
  show tb' = _
  rw [htb]
  rfl

theorem lastTripletWith_getLast (conv : Vec3 → Vec3) :
    ∀ (ls : List String) (p : Vec3) (l : String) (t : Vec3),
    ls.getLast? = some l → getFloatTuple l = .ok t →
    lastTripletWith conv ls p = conv t := by
  intro ls
  induction ls with
  | nil => intro p l t hl _; simp at hl
  | cons a rest ih =>
    intro p l t hl ht
    cases rest with
    | nil =>
      simp only [List.getLast?_singleton, Option.some.injEq] at hl
      subst hl
      simp [lastTripletWith, ht]
    | cons b rest' =>
      rw [List.getLast?_cons_cons] at hl
      simp only [lastTripletWith, List.foldl_cons]
      exact ih _ l t hl ht

/-- **C10.** In pre-split mode (as used by the batch splitter), each of the
three triplet attributes ends up holding the value extracted from the *last*
line carrying its prefix — every earlier occurrence is overwritten — and no
line carrying any triplet prefix is among the payload lines, so the earlier
occurrences are absent from the parser's output entirely (the payload is
exactly the kept lines, fourth conjunct). -/
theorem parseActor_last_triplet_wins (tmap : String → String) (text : String)
    (info : ObjectInfo) (h : parseActor tmap text true = .ok (some info)) :
    (∀ l t, (((pySplit text).drop 1).filter fun s => strStartsWith s "Location=").getLast?
          = some l →
        getFloatTuple l = .ok t → info.position = t)
    ∧ (∀ l t, (((pySplit text).drop 1).filter fun s => strStartsWith s "Rotation=").getLast?
          = some l →
        getFloatTuple l = .ok t → info.rotation = convertRotationFromUDK t)
    ∧ (∀ l t, (((pySplit text).drop 1).filter fun s => strStartsWith s "DrawScale3D=").getLast?
          = some l →
        getFloatTuple l = .ok t → info.scale = t)
    ∧ info.textblock = payloadJoin (((pySplit text).drop 1).filter keptLine)
    ∧ ∀ l ∈ ((pySplit text).drop 1).filter keptLine, tripletPrefix l = false := by
  obtain ⟨objtype, objname, info', tb', hh, hw, heq⟩ :=
    parseActor_ok_inv tmap text true info h
  obtain ⟨_, _, _, hp, hr, hs, htb⟩ := walkLines_spec true _ _ _ _ _ hw
  rw [consideredLines_true] at hp hr hs htb
  simp only [show startIndex true (pySplit text) = 0 from rfl, Nat.zero_add] at hp hr hs htb
  refine ⟨?_, ?_, ?_, ?_, ?_⟩
  · intro l t hl ht
    rw [heq]
    show info'.position = t
    rw [hp, lastTripletWith_getLast id _ _ l t hl ht]
    rfl
  · intro l t hl ht
    rw [heq]
    show info'.rotation = convertRotationFromUDK t
    rw [hr, lastTripletWith_getLast convertRotationFromUDK _ _ l t hl ht]
  · intro l t hl ht
    rw [heq]
    show info'.scale = t
    rw [hs, lastTripletWith_getLast id _ _ l t hl ht]
    rfl
  · rw [heq]
    show tb' = _
    rw [htb]
    rfl
  · intro l hm
    have hk : keptLine l = true := (List.mem_filter.mp hm).2
    simpa [keptLine] using hk

/-- The record a parse outcome carries, with a dummy fallback; lets a
witness name the concrete record a `parseActor` call produced. -/
def recordOf (r : Except Unit (Option ObjectInfo)) : ObjectInfo :=
  match r with
  | .ok (some i) => i
  | _ => { name := "", type_internal := "", type_common := "" }

def w7text : String :=
  "Begin Actor Class=A Name=B \nfoo bar\nLocation=(X=1.0,Y=2.0,Z=3.0)\nbaz"

def w7info : ObjectInfo := recordOf (parseActor (fun s => s) w7text true)

/-- Witness for `parseActor_payload`: the two unrecognized lines survive in
order, in original text, and nothing else is in the payload. -/
theorem parseActor_payload_witness :
    parseActor (fun s => s) w7text true = Except.ok (some w7info)
    ∧ w7info.textblock = payloadJoin
        ((consideredLines true
            ((pySplit w7text).drop (startIndex true (pySplit w7text) + 1))).filter keptLine)
    ∧ w7info.textblock = "\nfoo bar\nbaz" :=
  ⟨rfl, parseActor_payload (fun s => s) w7text true w7info rfl, rfl⟩

theorem pyFloat_four : pyFloat? "4.0" = some 4 := by
  have e : pyFloat? "4.0"
      = some ((1 : ℚ) * ((digitsVal ['4'] : ℚ)
          + (digitsVal ['0'] : ℚ) / (10 : ℚ) ^ (1 : ℕ))) := rfl
  rw [e, show digitsVal ['4'] = 4 from rfl, show digitsVal ['0'] = 0 from rfl]
  norm_num

theorem pyFloat_five : pyFloat? "5.0" = some 5 := by
  have e : pyFloat? "5.0"
      = some ((1 : ℚ) * ((digitsVal ['5'] : ℚ)
          + (digitsVal ['0'] : ℚ) / (10 : ℚ) ^ (1 : ℕ))) := rfl
  rw [e, show digitsVal ['5'] = 5 from rfl, show digitsVal ['0'] = 0 from rfl]
  norm_num

theorem pyFloat_six : pyFloat? "6.0" = some 6 := by
  have e : pyFloat? "6.0"
      = some ((1 : ℚ) * ((digitsVal ['6'] : ℚ)
          + (digitsVal ['0'] : ℚ) / (10 : ℚ) ^ (1 : ℕ))) := rfl
  rw [e, show digitsVal ['6'] = 6 from rfl, show digitsVal ['0'] = 0 from rfl]
  norm_num

theorem pyFloat_16384 : pyFloat? "16384" = some 16384 := by
  have e : pyFloat? "16384"
      = some ((1 : ℚ) * (digitsVal ['1', '6', '3', '8', '4'] : ℚ)) := rfl
  rw [e, show digitsVal ['1', '6', '3', '8', '4'] = 16384 from rfl]
  norm_num

theorem pyFloat_32768 : pyFloat? "32768" = some 32768 := by
  have e : pyFloat? "32768"
      = some ((1 : ℚ) * (digitsVal ['3', '2', '7', '6', '8'] : ℚ)) := rfl
  rw [e, show digitsVal ['3', '2', '7', '6', '8'] = 32768 from rfl]
  norm_num

theorem pyFloat_65536 : pyFloat? "65536" = some 65536 := by
  have e : pyFloat? "65536"
      = some ((1 : ℚ) * (digitsVal ['6', '5', '5', '3', '6'] : ℚ)) := rfl
  rw [e, show digitsVal ['6', '5', '5', '3', '6'] = 65536 from rfl]
  norm_num

def w10text : String :=
  String.append "Begin Actor Class=A Name=B \nLocation=(X=1.0,Y=1.0,Z=1.0)\nRotation=(P=0,Y=0,R=0)\nDrawScale3D=(X=2.0,Y=2.0,Z=2.0)\n"
    "Location=(X=4.0,Y=5.0,Z=6.0)\nRotation=(P=16384,Y=32768,R=65536)\nDrawScale3D=(X=3.0,Y=3.0,Z=3.0)\nplain"

def w10info : ObjectInfo := recordOf (parseActor (fun s => s) w10text true)

/-- Witness for `parseActor_last_triplet_wins`: with two occurrences of each
triplet line, the record holds the values of the *second* (last) occurrence
of each, and the payload holds only the plain line. -/
theorem parseActor_last_triplet_wins_witness :
    parseActor (fun s => s) w10text true = Except.ok (some w10info)
    ∧ w10info.position = (4, 5, 6)
    ∧ w10info.rotation = (90, 180, 360)
    ∧ w10info.scale = (3, 3, 3)
    ∧ w10info.textblock = "\nplain" := by
  have h := parseActor_last_triplet_wins (fun s => s) w10text w10info rfl
  refine ⟨rfl, ?_, ?_, ?_, rfl⟩
  · have hp := h.1 "Location=(X=4.0,Y=5.0,Z=6.0)"
      ((pyFloat? "4.0").getD 0, (pyFloat? "5.0").getD 0, (pyFloat? "6.0").getD 0) rfl rfl
    rw [hp, pyFloat_four, pyFloat_five, pyFloat_six]
    rfl
  · have hr := h.2.1 "Rotation=(P=16384,Y=32768,R=65536)"
      ((pyFloat? "16384").getD 0, (pyFloat? "32768").getD 0, (pyFloat? "65536").getD 0) rfl rfl
    rw [hr, pyFloat_16384, pyFloat_32768, pyFloat_65536]
    simp only [Option.getD_some, convertRotationFromUDK, Prod.mk.injEq]
    norm_num
  · have hs := h.2.2.1 "DrawScale3D=(X=3.0,Y=3.0,Z=3.0)"
      ((pyFloat? "3.0").getD 0, (pyFloat? "3.0").getD 0, (pyFloat? "3.0").getD 0) rfl rfl
    rw [hs, pyFloat_three]
    rfl

/-- The elements of `headerPat` after the first capture group. -/
def headerTail : List RElem :=
  [.lit ' ', .lit 'N', .lit 'a', .lit 'm', .lit 'e', .lit '=', .dotLazy true, .wsGreedy]

theorem lazyLoop_step_none (k : List Char → Option (List (List Char))) (cap : Bool)
    (acc : List Char) (x : Char) (xs : List Char)
    (hx : ¬ x = '\n') (hk : k xs = none) :
    lazyLoop k cap acc (x :: xs) = lazyLoop k cap (x :: acc) xs := by
  simp only [lazyLoop, if_neg hx, hk]

theorem lazyLoop_step_some (k : List Char → Option (List (List Char))) (cap : Bool)
    (acc : List Char) (x : Char) (xs : List Char) (caps : List (List Char))
    (hx : ¬ x = '\n') (hk : k xs = some caps) :
    lazyLoop k cap acc (x :: xs)
      = some (if cap then (x :: acc).reverse :: caps else caps) := by
  simp only [lazyLoop, if_neg hx, hk]

theorem lazyLoop_ws_end : ∀ (bar : List Char), bar ≠ [] →
    (∀ c ∈ bar, isPyWs c = false) →
    ∀ (acc extra : List Char),
    lazyLoop (reMatch [RElem.wsGreedy]) true acc (bar ++ ' ' :: extra)
      = some [acc.reverse ++ bar] := by
  intro bar
  induction bar with
  | nil => intro hne; exact absurd rfl hne
  | cons b bs ih =>
    intro _ hws acc extra
    have hb : isPyWs b = false := hws b (List.mem_cons_self b bs)
    have hbn : ¬ b = '\n' := by
      intro hh; rw [hh] at hb; simp [isPyWs] at hb
    cases bs with
    | nil =>
      have hk : reMatch [RElem.wsGreedy] (' ' :: extra) = some [] := by
        simp only [reMatch]
        have hl : ((' ' :: extra).takeWhile isPyWs).length
            = (extra.takeWhile isPyWs).length + 1 := by
          simp [List.takeWhile_cons, isPyWs]
        rw [hl]
        simp only [greedyLoop, reMatch]
      rw [show (([b] ++ ' ' :: extra : List Char)) = b :: (' ' :: extra) from rfl,
        lazyLoop_step_some (reMatch [RElem.wsGreedy]) true acc b (' ' :: extra) [] hbn hk]
      simp
    | cons b' bs' =>
      have hb' : isPyWs b' = false := hws b' (by simp)
      have hk : reMatch [RElem.wsGreedy] ((b' :: bs') ++ ' ' :: extra) = none := by
        simp only [reMatch]
        have hl : (((b' :: bs') ++ ' ' :: extra).takeWhile isPyWs).length = 0 := by
          simp [List.takeWhile_cons, hb']
        rw [hl]
        rfl
      rw [show ((b :: b' :: bs') ++ ' ' :: extra : List Char)
            = b :: ((b' :: bs') ++ ' ' :: extra) from rfl,
        lazyLoop_step_none (reMatch [RElem.wsGreedy]) true acc b
          ((b' :: bs') ++ ' ' :: extra) hbn hk,
        ih (by simp) (fun c hc => hws c (List.mem_cons_of_mem b hc)) (b :: acc) extra]
      simp

theorem lazyLoop_group1 : ∀ (foo : List Char), foo ≠ [] →
    (∀ c ∈ foo, isPyWs c = false) →
    ∀ (bar : List Char), bar ≠ [] → (∀ c ∈ bar, isPyWs c = false) →
    ∀ (acc extra : List Char),
    lazyLoop (reMatch headerTail) true acc
        (foo ++ ' ' :: 'N' :: 'a' :: 'm' :: 'e' :: '=' :: (bar ++ ' ' :: extra))
      = some [acc.reverse ++ foo, bar] := by
  intro foo
  induction foo with
  | nil => intro hne; exact absurd rfl hne
  | cons f fs ih =>
    intro _ hws bar hb hbw acc extra
    have hf : isPyWs f = false := hws f (List.mem_cons_self f fs)
    have hfn : ¬ f = '\n' := by intro hh; rw [hh] at hf; simp [isPyWs] at hf
    cases fs with
    | nil =>
      have hk : reMatch headerTail
          (' ' :: 'N' :: 'a' :: 'm' :: 'e' :: '=' :: (bar ++ ' ' :: extra)) = some [bar] := by
        have e : reMatch headerTail
            (' ' :: 'N' :: 'a' :: 'm' :: 'e' :: '=' :: (bar ++ ' ' :: extra))
            = lazyLoop (reMatch [RElem.wsGreedy]) true [] (bar ++ ' ' :: extra) := rfl
        rw [e, lazyLoop_ws_end bar hb hbw [] extra]
        simp
      rw [show (([f] ++ ' ' :: 'N' :: 'a' :: 'm' :: 'e' :: '=' :: (bar ++ ' ' :: extra) : List Char))
            = f :: (' ' :: 'N' :: 'a' :: 'm' :: 'e' :: '=' :: (bar ++ ' ' :: extra)) from rfl,
        lazyLoop_step_some (reMatch headerTail) true acc f _ [bar] hfn hk]
      simp
    | cons f' fs' =>
      have hf' : isPyWs f' = false := hws f' (by simp)
      have hne : ¬ f' = ' ' := by intro hh; rw [hh] at hf'; simp [isPyWs] at hf'
      have hk : reMatch headerTail
          ((f' :: fs') ++ ' ' :: 'N' :: 'a' :: 'm' :: 'e' :: '=' :: (bar ++ ' ' :: extra))
          = none := by
        simp [headerTail, reMatch, hne]
      rw [show ((f :: f' :: fs') ++ ' ' :: 'N' :: 'a' :: 'm' :: 'e' :: '=' :: (bar ++ ' ' :: extra) : List Char)
            = f :: ((f' :: fs') ++ ' ' :: 'N' :: 'a' :: 'm' :: 'e' :: '=' :: (bar ++ ' ' :: extra)) from rfl,
        lazyLoop_step_none (reMatch headerTail) true acc f _ hfn hk,
        ih (by simp) (fun c hc => hws c (List.mem_cons_of_mem f hc)) bar hb hbw (f :: acc) extra]
      simp


theorem reSearch_cons_none (pat : List RElem) (c : Char) (cs : List Char)
    (h : reMatch pat (c :: cs) = none) : reSearch pat (c :: cs) = reSearch pat cs := by
  simp only [reSearch, h]

/-- Scanning positions inside a prefix containing no `'C'` cannot start a
match of the header pattern (whose first element is the literal `C`). -/
theorem reSearch_headerPat_skip : ∀ (pre : List Char), (∀ c ∈ pre, ¬ c = 'C') →
    ∀ (s : List Char), reSearch headerPat (pre ++ s) = reSearch headerPat s := by
  intro pre
  induction pre with
  | nil => intro _ s; rfl
  | cons c cs ih =>
    intro h s
    have hc : ¬ c = 'C' := h c (List.mem_cons_self c cs)
    have hm : reMatch headerPat (c :: (cs ++ s)) = none := by
      simp [headerPat, reMatch, hc]
    rw [List.cons_append, reSearch_cons_none headerPat c (cs ++ s) hm,
      ih (fun c' hc' => h c' (List.mem_cons_of_mem c hc')) s]

/-- The header pattern on a line of the shape
`Begin Actor Class=<foo> Name=<bar> <extra>` (with `foo`, `bar` nonempty and
whitespace-free) captures exactly `foo` and `bar`: the match starts at the
leftmost `C`, the lazy first group stops at the first `" Name="`, the lazy
second group stops at the first whitespace. -/
theorem headerSearch_form (foo bar extra : List Char)
    (hf : foo ≠ []) (hfw : ∀ c ∈ foo, isPyWs c = false)
    (hb : bar ≠ []) (hbw : ∀ c ∈ bar, isPyWs c = false) :
    headerSearch ⟨'B' :: 'e' :: 'g' :: 'i' :: 'n' :: ' ' :: 'A' :: 'c' :: 't' :: 'o' :: 'r' :: ' ' ::
        'C' :: 'l' :: 'a' :: 's' :: 's' :: '=' ::
        (foo ++ ' ' :: 'N' :: 'a' :: 'm' :: 'e' :: '=' :: (bar ++ ' ' :: extra))⟩
      = some (⟨foo⟩, ⟨bar⟩) := by
  have hm : reMatch headerPat
      ('C' :: 'l' :: 'a' :: 's' :: 's' :: '=' ::
        (foo ++ ' ' :: 'N' :: 'a' :: 'm' :: 'e' :: '=' :: (bar ++ ' ' :: extra)))
      = lazyLoop (reMatch headerTail) true []
        (foo ++ ' ' :: 'N' :: 'a' :: 'm' :: 'e' :: '=' :: (bar ++ ' ' :: extra)) := rfl
  rw [headerSearch]
  show (match reSearch headerPat
      ('B' :: 'e' :: 'g' :: 'i' :: 'n' :: ' ' :: 'A' :: 'c' :: 't' :: 'o' :: 'r' :: ' ' ::
        'C' :: 'l' :: 'a' :: 's' :: 's' :: '=' ::
        (foo ++ ' ' :: 'N' :: 'a' :: 'm' :: 'e' :: '=' :: (bar ++ ' ' :: extra))) with
    | some (g1 :: g2 :: _) => some ((⟨g1⟩ : String), (⟨g2⟩ : String))
    | _ => none) = some (⟨foo⟩, ⟨bar⟩)
  rw [show ('B' :: 'e' :: 'g' :: 'i' :: 'n' :: ' ' :: 'A' :: 'c' :: 't' :: 'o' :: 'r' :: ' ' ::
        'C' :: 'l' :: 'a' :: 's' :: 's' :: '=' ::
        (foo ++ ' ' :: 'N' :: 'a' :: 'm' :: 'e' :: '=' :: (bar ++ ' ' :: extra)) : List Char)
      = ['B', 'e', 'g', 'i', 'n', ' ', 'A', 'c', 't', 'o', 'r', ' '] ++
        ('C' :: 'l' :: 'a' :: 's' :: 's' :: '=' ::
          (foo ++ ' ' :: 'N' :: 'a' :: 'm' :: 'e' :: '=' :: (bar ++ ' ' :: extra))) from rfl,
    reSearch_headerPat_skip ['B', 'e', 'g', 'i', 'n', ' ', 'A', 'c', 't', 'o', 'r', ' ']
      (by decide) _,
    reSearch, hm, lazyLoop_group1 foo hf hfw bar hb hbw [] extra]
  simp

theorem splitRun_append_newline : ∀ (a : List Char), '\n' ∉ a → ∀ (acc b : List Char),
    splitRun false acc (a ++ '\n' :: b)
      = (acc.reverse ++ a) :: splitRun true [] b := by
  intro a
  induction a with
  | nil =>
    intro _ acc b
    show splitRun false acc ('\n' :: b) = _
    simp [splitRun]
  | cons x xs ih =>
    intro hnin acc b
    have hx : ¬ x = '\n' := fun hh => hnin (hh ▸ List.mem_cons_self x xs)
    show splitRun false acc (x :: (xs ++ '\n' :: b)) = _
    rw [splitRun]
    simp only [Bool.false_eq_true, if_false, if_neg hx]
    rw [ih (fun hm => hnin (List.mem_cons_of_mem x hm)) (x :: acc) b]
    simp

theorem startIndex_true (ls : List String) : startIndex true ls = 0 := rfl

/-- Forward evaluation of `parseActor` from a header match and a completed
body walk. -/
theorem parseActor_eval (tmap : String → String) (text : String) (safe : Bool)
    (ot oname : String)
    (hh : headerSearch ((pySplit text).getD (startIndex safe (pySplit text)) "")
        = some (ot, oname))
    (info' : ObjectInfo) (tb' : String)
    (hw : walkLines safe ((pySplit text).drop (startIndex safe (pySplit text) + 1))
        { name := oname, type_internal := ot, type_common := tmap ot } ""
        = .ok (info', tb')) :
    parseActor tmap text safe = .ok (some { info' with textblock := tb' }) := by
  simp only [parseActor, hh, hw]

/-- **C5.** For a well-formed actor block whose header line carries
`Class=<foo> Name=<bar>` (whitespace-delimited, nonempty tokens) and whose
body lines raise no triplet exception, `parseActor` succeeds and the record
carries `type_internal = foo` and `name = bar`. -/
theorem parseActor_header_fields (tmap : String → String) (foo bar body : String)
    (hf : foo.data ≠ []) (hfw : ∀ c ∈ foo.data, isPyWs c = false)
    (hb : bar.data ≠ []) (hbw : ∀ c ∈ bar.data, isPyWs c = false)
    (hbody : ∀ l ∈ pySplit ("Begin Actor Class=" ++ foo ++ " Name=" ++ bar ++ " \n" ++ body),
      tripletPrefix l = true → exceptOk (getFloatTuple l) = true) :
    ∃ info,
      parseActor tmap ("Begin Actor Class=" ++ foo ++ " Name=" ++ bar ++ " \n" ++ body) true
        = .ok (some info)
      ∧ info.type_internal = foo ∧ info.name = bar := by
  have hfn : '\n' ∉ foo.data := by
    intro hm; have := hfw _ hm; simp [isPyWs] at this
  have hbn : '\n' ∉ bar.data := by
    intro hm; have := hbw _ hm; simp [isPyWs] at this
  have hdata : ("Begin Actor Class=" ++ foo ++ " Name=" ++ bar ++ " \n" ++ body).data
      = ('B' :: 'e' :: 'g' :: 'i' :: 'n' :: ' ' :: 'A' :: 'c' :: 't' :: 'o' :: 'r' :: ' ' ::
          'C' :: 'l' :: 'a' :: 's' :: 's' :: '=' ::
          (foo.data ++ ' ' :: 'N' :: 'a' :: 'm' :: 'e' :: '=' :: (bar.data ++ ' ' :: [])))
        ++ '\n' :: body.data := by
    simp only [String.data_append,
      show ("Begin Actor Class=").data
        = ['B', 'e', 'g', 'i', 'n', ' ', 'A', 'c', 't', 'o', 'r', ' ',
           'C', 'l', 'a', 's', 's', '='] from rfl,
      show (" Name=").data = [' ', 'N', 'a', 'm', 'e', '='] from rfl,
      show (" \n").data = [' ', '\n'] from rfl]
    simp [List.cons_append, List.nil_append, List.append_assoc]
  have hA : '\n' ∉ ('B' :: 'e' :: 'g' :: 'i' :: 'n' :: ' ' :: 'A' :: 'c' :: 't' :: 'o' :: 'r' :: ' ' ::
      'C' :: 'l' :: 'a' :: 's' :: 's' :: '=' ::
      (foo.data ++ ' ' :: 'N' :: 'a' :: 'm' :: 'e' :: '=' :: (bar.data ++ ' ' :: [])) : List Char) := by
    intro hm
    simp only [List.mem_cons, List.mem_append] at hm
    rcases hm with h | h | h | h | h | h | h | h | h | h | h | h | h | h | h | h | h | h | h
    all_goals first
      | exact absurd h (by decide)
      | exact absurd h hfn
      | (rcases h with h | h
         · exact absurd h hfn
         · rcases h with h | h | h | h | h | h | h
           all_goals first
             | exact absurd h (by decide)
             | (rcases h with h | h
                · exact absurd h hbn
                · rcases h with h | h
                  · exact absurd h (by decide)
                  · simp at h))
  have hsplit : pySplit ("Begin Actor Class=" ++ foo ++ " Name=" ++ bar ++ " \n" ++ body)
      = (⟨'B' :: 'e' :: 'g' :: 'i' :: 'n' :: ' ' :: 'A' :: 'c' :: 't' :: 'o' :: 'r' :: ' ' ::
          'C' :: 'l' :: 'a' :: 's' :: 's' :: '=' ::
          (foo.data ++ ' ' :: 'N' :: 'a' :: 'm' :: 'e' :: '=' :: (bar.data ++ ' ' :: []))⟩ : String)
        :: (splitRun true [] body.data).map (fun l => (⟨l⟩ : String)) := by
    rw [pySplit, hdata, splitRun_append_newline _ hA [] body.data]
    simp
  have hh : headerSearch
      ((pySplit ("Begin Actor Class=" ++ foo ++ " Name=" ++ bar ++ " \n" ++ body)).getD
        (startIndex true (pySplit ("Begin Actor Class=" ++ foo ++ " Name=" ++ bar ++ " \n" ++ body))) "")
      = some (foo, bar) := by
    rw [hsplit, startIndex_true, List.getD_cons_zero,
      headerSearch_form foo.data bar.data [] hf hfw hb hbw]
  have hdrop : (pySplit ("Begin Actor Class=" ++ foo ++ " Name=" ++ bar ++ " \n" ++ body)).drop
      (startIndex true (pySplit ("Begin Actor Class=" ++ foo ++ " Name=" ++ bar ++ " \n" ++ body)) + 1)
      = (splitRun true [] body.data).map (fun l => (⟨l⟩ : String)) := by
    rw [hsplit]
    rfl
  obtain ⟨⟨info', tb'⟩, hw⟩ := walkLines_isOk true
    ((splitRun true [] body.data).map (fun l => (⟨l⟩ : String)))
    { name := bar, type_internal := foo, type_common := tmap foo } ""
    (fun l hm => hbody l (by rw [hsplit]; exact List.mem_cons_of_mem _ hm))
  obtain ⟨hn, hti, _, _, _, _, _⟩ := walkLines_spec true _ _ _ _ _ hw
  refine ⟨{ info' with textblock := tb' }, ?_, ?_, ?_⟩
  · exact parseActor_eval tmap _ true foo bar hh info' tb' (by rw [hdrop]; exact hw)
  · exact hti
  · exact hn

def w5text : String := "Begin Actor Class=Foo Name=Bar \nLocation=(X=1.0,Y=2.0,Z=3.0)"

def w5info : ObjectInfo := recordOf (parseActor (fun s => s) w5text true)

/-- Witness for `parseActor_header_fields` on a concrete block. -/
theorem parseActor_header_fields_witness :
    parseActor (fun s => s) w5text true = Except.ok (some w5info)
    ∧ w5info.type_internal = "Foo" ∧ w5info.name = "Bar" := by
  obtain ⟨i, hi, hti, hn⟩ := parseActor_header_fields (fun s => s) "Foo" "Bar"
    "Location=(X=1.0,Y=2.0,Z=3.0)" (by decide) (by decide) (by decide) (by decide)
    (by decide)
  have e : ("Begin Actor Class=" ++ "Foo" ++ " Name=" ++ "Bar" ++ " \n"
      ++ "Location=(X=1.0,Y=2.0,Z=3.0)") = w5text := rfl
  rw [e] at hi
  have hwi : w5info = i := by
    have e2 : w5info = recordOf (parseActor (fun s => s) w5text true) := rfl
    rw [e2, hi]
    rfl
  rw [hwi]
  exact ⟨hi, hti, hn⟩
